import Mathlib

/-!
Verification of the tfc-exes EtherCAT executable against its
natural-language specification.

The development shallowly embeds the parts of the Rust sources that the
claims depend on:

* `Codec` — little-endian byte serialization helpers shared by all
  process-data layouts (the `ethercrab-wire` packing model: bit fields are
  laid out least-significant-bit first inside a little-endian byte frame).
* `El3356` — the Beckhoff EL3356 load-cell driver
  (`src/ethercat/src/devices/beckhoff/el3356.rs`): the `StatusWord`,
  `ControlWord`, `InputPdo` and `OutputPdo` wire layouts, the `Calibrate`
  state machine, and the `zero_calibrate` / `calibrate` SDO sequences,
  modelled as trace-producing functions over an abstract register-read
  oracle with explicit fuel for the unbounded polling loop.
* `I550` — the Lenze i550 drive layouts and the length checks of its
  `process_data` (`src/ethercat/src/devices/lenze/i550.rs`).
* `El1xxx` — the generic digital-input device
  (`src/src/bin/ethercat/devices/beckhoff/el1xxx.rs`): its one-shot
  length-mismatch error flag and (disabled) per-channel publishing.
* `Bus` — the bring-up and tick loop of `src/src/bin/ethercat/main.rs`:
  sequential `setup` dispatch with first-failure abort, the 1-second
  init retry loop, the `?`-propagating `process_data` dispatch, and the
  skip-missed-ticks pacing policy.

Machine integers are modelled as `Nat` / `Int` with explicit ranges;
`f32` register payloads are carried opaquely as `Rat` values (the code
never computes on them, it only forwards literals and configuration
values to the device).
-/

/-! ## Byte-level serialization helpers -/

namespace Codec

/-- Little-endian byte list (each entry < 256) of the low `len` bytes of `n`.
Mirrors how `ethercrab-wire` lays a packed bit image into a byte frame. -/
def bytesOfNat : Nat → Nat → List Nat
  | 0, _ => []
  | len + 1, n => n % 256 :: bytesOfNat len (n / 256)

/-- Value of a little-endian byte list. -/
def natOfBytes : List Nat → Nat
  | [] => 0
  | b :: bs => b + 256 * natOfBytes bs

end Codec

/-! ## EL3356 load-cell driver (`el3356.rs`) -/

namespace El3356

/-- Input status word, `#[wire(bytes = 2)]` in `el3356.rs`.
Bit offsets (LSB first): `over_range` at bit 1 (pre_skip 1), `data_invalid`
at bit 3 (pre_skip 1), `collective_error` at bit 6 (pre_skip 2),
`calibration_in_progress` at bit 7, `steady_state` at bit 8, `sync_error`
at bit 13 (pre_skip 4), `tx_pdo` at bit 15 (pre_skip 1). -/
structure StatusWord where
  over_range : Bool
  data_invalid : Bool
  collective_error : Bool
  calibration_in_progress : Bool
  steady_state : Bool
  sync_error : Bool
  tx_pdo : Bool
deriving DecidableEq

/-- Pack a `StatusWord` into its 16-bit image. -/
def StatusWord.packBits (s : StatusWord) : Nat :=
  2 * s.over_range.toNat + 8 * s.data_invalid.toNat +
  64 * s.collective_error.toNat + 128 * s.calibration_in_progress.toNat +
  256 * s.steady_state.toNat + 8192 * s.sync_error.toNat +
  32768 * s.tx_pdo.toNat

/-- Unpack a `StatusWord` from its 16-bit image. -/
def StatusWord.unpackBits (n : Nat) : StatusWord :=
  ⟨n.testBit 1, n.testBit 3, n.testBit 6, n.testBit 7,
   n.testBit 8, n.testBit 13, n.testBit 15⟩

/-- Output control word, `#[wire(bytes = 2)]` in `el3356.rs`.
Five 1-bit fields at bits 0..4, then `post_skip = 11`. -/
structure ControlWord where
  start_calibration : Bool
  disable_calibration : Bool
  input_freeze : Bool
  sample_mode : Bool
  tare : Bool
deriving DecidableEq

/-- Pack a `ControlWord` into its 16-bit image. -/
def ControlWord.packBits (c : ControlWord) : Nat :=
  c.start_calibration.toNat + 2 * c.disable_calibration.toNat +
  4 * c.input_freeze.toNat + 8 * c.sample_mode.toNat + 16 * c.tare.toNat

/-- Unpack a `ControlWord` from its 16-bit image. -/
def ControlWord.unpackBits (n : Nat) : ControlWord :=
  ⟨n.testBit 0, n.testBit 1, n.testBit 2, n.testBit 3, n.testBit 4⟩

/-- Two's-complement 32-bit image of an `i32` value. -/
def toU32 (v : Int) : Nat := (v % 4294967296).toNat

/-- `i32` value of a 32-bit image. -/
def fromU32 (n : Nat) : Int :=
  if n < 2147483648 then (n : Int) else (n : Int) - 4294967296

/-- Input PDO of the EL3356: a 16-bit `StatusWord` followed by a 32-bit
`raw_value : i32`, `#[wire(bytes = 6)]`. -/
structure InputPdo where
  value : StatusWord
  raw_value : Int
deriving DecidableEq

/-- `InputPdo` serialization (the wire image of `EtherCrabWireRead`). -/
def InputPdo.pack (p : InputPdo) : List Nat :=
  Codec.bytesOfNat 6 (p.value.packBits + 65536 * toU32 p.raw_value)

/-- `InputPdo::unpack_from_slice`: length-checked decode of 6 bytes. -/
def InputPdo.unpack (bs : List Nat) : Option InputPdo :=
  if bs.length = 6 then
    let n := Codec.natOfBytes bs
    some ⟨StatusWord.unpackBits (n % 65536), fromU32 (n / 65536 % 4294967296)⟩
  else none

/-- Output PDO of the EL3356: a single 16-bit `ControlWord`,
`#[wire(bytes = 2)]`. -/
structure OutputPdo where
  control_word : ControlWord
deriving DecidableEq

/-- `OutputPdo::pack_to_slice`: 2-byte encode. -/
def OutputPdo.pack (p : OutputPdo) : List Nat :=
  Codec.bytesOfNat 2 p.control_word.packBits

/-- `OutputPdo` decode (inverse of the declared wire layout). -/
def OutputPdo.unpack (bs : List Nat) : Option OutputPdo :=
  if bs.length = 2 then
    some ⟨ControlWord.unpackBits (Codec.natOfBytes bs % 65536)⟩
  else none

/-! ### Declared wire layouts (the `#[wire]` attributes) for claim C9 -/

/-- One `#[wire(bits = w, pre_skip = a, post_skip = b)]` field attribute. -/
structure FieldSpec where
  preSkip : Nat
  width : Nat
  postSkip : Nat

/-- Bits consumed by one field, skips included. -/
def FieldSpec.bits (f : FieldSpec) : Nat := f.preSkip + f.width + f.postSkip

/-- Total bits of a layout, skips included. -/
def layoutBits (fs : List FieldSpec) : Nat := (fs.map FieldSpec.bits).sum

/-- The seven fields of `StatusWord` as declared in `el3356.rs`. -/
def statusWordFields : List FieldSpec :=
  [⟨1, 1, 0⟩, ⟨1, 1, 0⟩, ⟨2, 1, 0⟩, ⟨0, 1, 0⟩, ⟨0, 1, 0⟩, ⟨4, 1, 0⟩, ⟨1, 1, 0⟩]

/-- `#[wire(bytes = 2)]` on `StatusWord`. -/
def statusWordBytes : Nat := 2

/-- The five fields of `ControlWord` as declared in `el3356.rs`. -/
def controlWordFields : List FieldSpec :=
  [⟨0, 1, 0⟩, ⟨0, 1, 0⟩, ⟨0, 1, 0⟩, ⟨0, 1, 0⟩, ⟨0, 1, 11⟩]

/-- `#[wire(bytes = 2)]` on `ControlWord`. -/
def controlWordBytes : Nat := 2

/-- The two fields of `InputPdo` (16-bit status word, 32-bit raw value). -/
def inputPdoFields : List FieldSpec := [⟨0, 16, 0⟩, ⟨0, 32, 0⟩]

/-- `#[wire(bytes = 6)]` on `InputPdo`. -/
def inputPdoBytes : Nat := 6

/-- The single field of `OutputPdo` (16-bit control word). -/
def outputPdoFields : List FieldSpec := [⟨0, 16, 0⟩]

/-- `#[wire(bytes = 2)]` on `OutputPdo`. -/
def outputPdoBytes : Nat := 2

/-! ### The `Calibrate` state machine (`smlang::statemachine!` in `el3356.rs`) -/

/-- States of the `Calibrate` state machine. -/
inductive CalState
  | Idle
  | ZeroCalibration
  | Calibration
deriving DecidableEq, Fintype

/-- Events of the `Calibrate` state machine. -/
inductive CalEvent
  | SetZeroCalibration
  | SetCalibration
  | SetIdle
deriving DecidableEq, Fintype

/-- The declared transitions: `Idle + SetZeroCalibration = ZeroCalibration`,
`ZeroCalibration + SetCalibration = Calibration`,
`Calibration + SetIdle = Idle`; every other pair is rejected
(`smlang` returns `Error::InvalidEvent` and keeps the state). -/
def calStep : CalState → CalEvent → Option CalState
  | CalState.Idle, CalEvent.SetZeroCalibration => some CalState.ZeroCalibration
  | CalState.ZeroCalibration, CalEvent.SetCalibration => some CalState.Calibration
  | CalState.Calibration, CalEvent.SetIdle => some CalState.Idle
  | _, _ => none

/-- Run a list of events through `process_event`; a rejected event leaves
the machine in its current state. -/
def calRun : CalState → List CalEvent → CalState
  | s, [] => s
  | s, e :: es => calRun ((calStep s e).getD s) es

/-! ### The calibration SDO sequences (`zero_calibrate` / `calibrate`)

Both functions drive the acknowledged configuration channel; they are
modelled as trace-producing programs over an abstract poll oracle
`polls : Nat → Nat × Nat` giving the `(0xFB00:02, 0xFB00:03)` register
pair read in poll iteration `k`, with explicit `fuel` for the unbounded
`loop` (fuel exhaustion models a still-spinning loop, result `false`). -/

/-- The `Filter` enum of `el3356.rs`, `#[repr(u16)]`. -/
inductive Filter
  | FIR50
  | FIR60
  | IIR1
  | IIR2
  | IIR3
  | IIR4
  | IIR5
  | IIR6
  | IIR7
  | IIR8
  | DynamicIIR
  | PDOFilterFrequency
deriving DecidableEq

/-- The `u16` discriminant of each `Filter` variant. -/
def Filter.code : Filter → Nat
  | Filter.FIR50 => 0
  | Filter.FIR60 => 1
  | Filter.IIR1 => 2
  | Filter.IIR2 => 3
  | Filter.IIR3 => 4
  | Filter.IIR4 => 5
  | Filter.IIR5 => 6
  | Filter.IIR6 => 7
  | Filter.IIR7 => 8
  | Filter.IIR8 => 9
  | Filter.DynamicIIR => 10
  | Filter.PDOFilterFrequency => 11

/-- A typed value carried by one SDO write. `f32` payloads are opaque
`Rat` tags: the code only forwards the literals `1.0` / `0.0` and
configuration values, never computes on them. -/
inductive WireVal
  | vU8 (n : Nat)
  | vU16 (n : Nat)
  | vU32 (n : Nat)
  | vF32 (q : Rat)
deriving DecidableEq

/-- One observable action on the acknowledged configuration channel. -/
inductive SdoOp
  | sdoWrite (idx : Nat) (sub : Nat) (val : WireVal)
  | sdoRead (idx : Nat) (sub : Nat)
  | sleepMs (ms : Nat)
deriving DecidableEq

/-- The polling `loop` shared by `zero_calibrate` and `calibrate`: read
status `0xFB00:02` (u8) and response `0xFB00:03` (u32); break when both
are `0`, otherwise sleep 1 ms and poll again. `i` is the iteration
counter into the oracle. -/
def pollLoop (polls : Nat → Nat × Nat) : Nat → Nat → List SdoOp × Bool
  | _, 0 => ([], false)
  | i, fuel + 1 =>
    if (polls i).1 = 0 ∧ (polls i).2 = 0 then
      ([SdoOp.sdoRead 0xFB00 0x02, SdoOp.sdoRead 0xFB00 0x03], true)
    else
      let rest := pollLoop polls (i + 1) fuel
      (SdoOp.sdoRead 0xFB00 0x02 :: SdoOp.sdoRead 0xFB00 0x03 ::
        SdoOp.sleepMs 1 :: rest.1, rest.2)

/-- `El3356::zero_calibrate(device, nominal_load)`: the seven SDO writes
of steps 1-9 of the vendor procedure, in program order, then the
acknowledgement polling loop. Returns the emitted trace and whether the
loop converged (both registers read `0`). -/
def zero_calibrate (nominal_load : Rat) (polls : Nat → Nat × Nat)
    (fuel : Nat) : List SdoOp × Bool :=
  let p := pollLoop polls 0 fuel
  ([SdoOp.sdoWrite 0x1011 0x01 (WireVal.vU32 0x64616F6C),
    SdoOp.sdoWrite 0x8000 0x27 (WireVal.vF32 1),
    SdoOp.sdoWrite 0x8000 0x21 (WireVal.vF32 1),
    SdoOp.sdoWrite 0x8000 0x22 (WireVal.vF32 0),
    SdoOp.sdoWrite 0x8000 0x11 (WireVal.vU16 Filter.IIR8.code),
    SdoOp.sdoWrite 0x8000 0x24 (WireVal.vF32 nominal_load),
    SdoOp.sdoWrite 0xFB00 0x01 (WireVal.vU16 0x0101)] ++ p.1, p.2)

/-- `El3356::calibrate(device, calibration_load, filter)`: write the
reference load to `0x8000:28`, issue command `0x0102`, poll the same
status/response pair to zero, then (only on convergence) reset the
command register to `0x0000` and finally write the caller's filter. -/
def calibrate (calibration_load : Rat) (filter : Filter)
    (polls : Nat → Nat × Nat) (fuel : Nat) : List SdoOp × Bool :=
  let p := pollLoop polls 0 fuel
  let head := [SdoOp.sdoWrite 0x8000 0x28 (WireVal.vF32 calibration_load),
    SdoOp.sdoWrite 0xFB00 0x01 (WireVal.vU16 0x0102)]
  if p.2 then
    (head ++ p.1 ++
      [SdoOp.sdoWrite 0xFB00 0x01 (WireVal.vU16 0x0000),
       SdoOp.sdoWrite 0x8000 0x11 (WireVal.vU16 filter.code)], true)
  else
    (head ++ p.1, false)

end El3356

/-! ## Lenze i550 drive driver (`i550.rs`) -/

namespace I550

/-- Two's-complement 16-bit image of an `i16` value. -/
def toU16 (v : Int) : Nat := (v % 65536).toNat

/-- `i16` value of a 16-bit image. -/
def fromU16 (n : Nat) : Int :=
  if n < 32768 then (n : Int) else (n : Int) - 65536

/-- Output PDO of the i550, `#[wire(bytes = 4)]`: a 16-bit CiA402 control
word followed by `speed : i16`. The `CiA402` module is not under `src/`;
its control word is carried at its declared 16-bit field width. -/
structure OutputPdo where
  control_word : Nat
  speed : Int
deriving DecidableEq

/-- `OutputPdo::pack_to_slice`: 4-byte encode. -/
def OutputPdo.pack (p : OutputPdo) : List Nat :=
  Codec.bytesOfNat 4 (p.control_word + 65536 * toU16 p.speed)

/-- `OutputPdo` decode (inverse of the declared wire layout). -/
def OutputPdo.unpack (bs : List Nat) : Option OutputPdo :=
  if bs.length = 4 then
    let n := Codec.natOfBytes bs
    some ⟨n % 65536, fromU16 (n / 65536 % 65536)⟩
  else none

/-- Input PDO of the i550, `#[wire(bytes = 6)]`: a 16-bit CiA402 status
word, `actual_speed : i16` and `error : i16`. -/
structure InputPdo where
  status_word : Nat
  actual_speed : Int
  error : Int
deriving DecidableEq

/-- `InputPdo` serialization (the wire image of `EtherCrabWireRead`). -/
def InputPdo.pack (p : InputPdo) : List Nat :=
  Codec.bytesOfNat 6
    (p.status_word + 65536 * toU16 p.actual_speed + 4294967296 * toU16 p.error)

/-- `InputPdo::unpack_from_slice`: length-checked decode of 6 bytes. -/
def InputPdo.unpack (bs : List Nat) : Option InputPdo :=
  if bs.length = 6 then
    let n := Codec.natOfBytes bs
    some ⟨n % 65536, fromU16 (n / 65536 % 65536), fromU16 (n / 4294967296 % 65536)⟩
  else none

/-- Outcome of one `I550::process_data` call: the cycle counter after the
call, whether a length-mismatch warning was emitted, whether the output
PDO was packed into the output slice, and the returned `Result`. The
output contents go through the absent `CiA402::transition`, so only the
fact of the write is recorded. -/
structure PdOutcome where
  cnt : Nat
  warned : Bool
  wrote : Bool
  result : Except String Unit

/-- `I550::process_data`: if the output slice is not 4 bytes, warn and
return `Ok`; if the input slice is not 6 bytes, warn and return `Ok`;
otherwise unpack the input, pack the output and bump the cycle counter. -/
def process_data (cnt : Nat) (input output : List Nat) : PdOutcome :=
  if output.length ≠ 4 then ⟨cnt, true, false, Except.ok ()⟩
  else if input.length ≠ 6 then ⟨cnt, true, false, Except.ok ()⟩
  else ⟨cnt + 1, false, true, Except.ok ()⟩

end I550

/-! ## Generic digital-input device `El1xxx` (`el1xxx.rs`) -/

namespace El1xxx

/-- `El1002Info::ENTRIES`. -/
def entriesEl1002 : List Nat := [1, 5]

/-- `El1008Info::ENTRIES`: the channel-to-name map of the 8-channel
device; signal `idx` is named after entry `ENTRIES[idx]`. -/
def entriesEl1008 : List Nat := [1, 5, 2, 6, 3, 7, 4, 8]

/-- `El1809Info::ENTRIES`. -/
def entriesEl1809 : List Nat :=
  [1, 2, 3, 4, 5, 6, 7, 8, 9, 10, 11, 12, 13, 14, 15, 16]

/-- `view_bits::<Lsb0>` over a byte list: all bits, least significant bit
of the first byte first. -/
def bitsLsb0 (bytes : List Nat) : List Bool :=
  bytes.flatMap (fun b => (List.range 8).map (fun i => b.testBit i))

/-- Signal names built in `El1xxx::new`: `"{NAME}_s{num}_in{ENTRIES[idx]}"`
for each channel index. -/
def signalNames (name : String) (num : Nat) (entries : List Nat) : List String :=
  entries.map (fun e => name ++ "_s" ++ toString num ++ "_in" ++ toString e)

/-- Outcome of one `El1xxx::process_data` call: the one-shot `error` flag
after the call, whether the mismatch was logged this call, the returned
`Result`, and the `(channel index, bit)` pairs actually sent to the
per-channel signals. -/
structure PdOutcome where
  errFlag : Bool
  logged : Bool
  result : Except String Unit
  published : List (Nat × Bool)

/-- `El1xxx::process_data` over `ARR_LEN` input bytes and the one-shot
`error` flag: when the input length mismatches and the flag is clear,
log once, set the flag and fail the cycle; otherwise clear the flag and
iterate the LSB-first bits. The per-channel `async_send` in the bit loop
is commented out in the source, so nothing is ever published. -/
def process_data (arrLen : Nat) (err : Bool) (input : List Nat) : PdOutcome :=
  if input.length ≠ arrLen ∧ err = false then
    ⟨true, true, Except.error "Input data length mismatch", []⟩
  else
    ⟨false, false, Except.ok (), []⟩

/-- Modelled from the spec: the publications §4.5 prescribes for one
matching-length cycle — one boolean per configured channel, channel
`idx` (named after `entries[idx]`) carrying the LSB-first bit at
position `idx`. The source's send loop is disabled, so `process_data`
never produces this list; it exists for comparison. -/
def specPublications (entries : List Nat) (input : List Nat) : List (Nat × Bool) :=
  entries.zip (bitsLsb0 input)

end El1xxx

/-! ## Bus engine (`main.rs`) -/

namespace Bus

/-- Result of one `Bus::init` attempt: the device indices on which
`setup` was invoked (in invocation order), the overall result carrying
the failing device's index and cause, and whether the group transition
to operational (`into_op`) was reached. -/
structure InitOutcome (E : Type) where
  setupOrder : List Nat
  result : Except (Nat × E) Unit
  enteredOperational : Bool

/-- The `for` loop of `Bus::init`: resolve and `setup` each subdevice in
bus-enumeration order with sequential indices, aborting on the first
failure via `?` (after logging the failing index). -/
def setupLoop {E : Type} : List (Except E Unit) → Nat → List Nat × Except (Nat × E) Unit
  | [], _ => ([], Except.ok ())
  | Except.ok _ :: rest, idx =>
    let r := setupLoop rest (idx + 1)
    (idx :: r.1, r.2)
  | Except.error e :: _, idx => ([idx], Except.error (idx, e))

/-- `Bus::init` over the per-device `setup` results: run the setup loop
from index 0; only when every setup succeeded does the group transition
to operational. -/
def init {E : Type} (setups : List (Except E Unit)) : InitOutcome E :=
  let r := setupLoop setups 0
  { setupOrder := r.1
    result := r.2
    enteredOperational := match r.2 with
      | Except.ok _ => true
      | Except.error _ => false }

/-- One observable action of the `main` init-retry loop. -/
inductive MainOp
  | initAttempt (k : Nat)
  | sleepMs (ms : Nat)
deriving DecidableEq

/-- The inner `loop` of `main`: call `bus.init()`; on failure sleep a
fixed 1000 ms and retry, on success break. `success k` tells whether
attempt `k` succeeds; fuel bounds the unrolling (exhaustion models a
still-retrying loop, result `false`). -/
def initRetry (success : Nat → Bool) : Nat → Nat → List MainOp × Bool
  | _, 0 => ([], false)
  | k, fuel + 1 =>
    if success k then ([MainOp.initAttempt k], true)
    else
      let rest := initRetry success (k + 1) fuel
      (MainOp.initAttempt k :: MainOp.sleepMs 1000 :: rest.1, rest.2)

/-- The per-device dispatch of `Bus::run`:
`device.process_data(&mut subdevice).await?` folded over the device
list — the first `Err` aborts the whole dispatch (and hence `run`). -/
def processAll : List (Except String Unit) → Except String Unit
  | [] => Except.ok ()
  | Except.ok _ :: rest => processAll rest
  | Except.error e :: _ => Except.error e

/-! ### Tick pacing (`tokio::time::interval` with `MissedTickBehavior::Skip`)

`run()` creates the interval once and awaits `tick()` after each frame
exchange + dispatch. With the `Skip` policy (documented tokio behavior,
matching the spec: when the deadline has passed, jump to the next period
boundary instead of bursting catch-up ticks), `tick()` either waits for
the pending deadline or completes immediately and re-arms on the next
boundary of the original period grid. Time is modelled in abstract
units as `Nat`. -/

/-- One `tick().await` against deadline `d` at current time `now` with
period `p`: returns (completion time, next deadline). -/
def tickFire (p d now : Nat) : Nat × Nat :=
  if now < d then (d, d + p)
  else (now, d + p * ((now - d) / p + 1))

/-- The pacing state of `run()` after `k` loop iterations, starting at
time `t0` (the interval's first tick fires immediately, so the initial
deadline is `t0`). `delays k` is the injected duration of iteration
`k`'s frame exchange + dispatch. Component 1 is the current time,
component 2 the pending tick deadline. -/
def runSeq (p : Nat) (delays : Nat → Nat) (t0 : Nat) : Nat → Nat × Nat
  | 0 => (t0, t0)
  | k + 1 =>
    let s := runSeq p delays t0 k
    tickFire p s.2 (s.1 + delays k)

end Bus

/-! ## Lemmas: byte serialization -/

/-- `bytesOfNat` always produces exactly the requested number of bytes. -/
theorem Codec.length_bytesOfNat (len : Nat) : ∀ n, (Codec.bytesOfNat len n).length = len := by
  induction len with
  | zero => intro n; rfl
  | succ k ih => intro n; simp [Codec.bytesOfNat, ih]

/-- Reading back a little-endian encoding recovers the value modulo the
covered range. -/
theorem Codec.natOfBytes_bytesOfNat (len : Nat) :
    ∀ n, Codec.natOfBytes (Codec.bytesOfNat len n) = n % 256 ^ len := by
  induction len with
  | zero => intro n; simp [Codec.bytesOfNat, Codec.natOfBytes, Nat.mod_one]
  | succ k ih =>
    intro n
    rw [Codec.bytesOfNat, Codec.natOfBytes, ih (n / 256), pow_succ, mul_comm (256 ^ k) 256,
      Nat.mod_mul]

/-! ## Lemmas: EL3356 and i550 wire images -/

/-- Packed status words fit in 16 bits. -/
theorem El3356.statusWord_packBits_lt (a b c d e f g : Bool) :
    StatusWord.packBits ⟨a, b, c, d, e, f, g⟩ < 65536 := by
  cases a <;> cases b <;> cases c <;> cases d <;> cases e <;> cases f <;> cases g <;> decide

/-- Unpacking a packed status word recovers every field. -/
theorem El3356.statusWord_unpackBits_packBits (a b c d e f g : Bool) :
    StatusWord.unpackBits (StatusWord.packBits ⟨a, b, c, d, e, f, g⟩) = ⟨a, b, c, d, e, f, g⟩ := by
  cases a <;> cases b <;> cases c <;> cases d <;> cases e <;> cases f <;> cases g <;> decide

/-- Packed control words fit in 16 bits. -/
theorem El3356.controlWord_packBits_lt (a b c d e : Bool) :
    ControlWord.packBits ⟨a, b, c, d, e⟩ < 65536 := by
  cases a <;> cases b <;> cases c <;> cases d <;> cases e <;> decide

/-- Unpacking a packed control word recovers every field. -/
theorem El3356.controlWord_unpackBits_packBits (a b c d e : Bool) :
    ControlWord.unpackBits (ControlWord.packBits ⟨a, b, c, d, e⟩) = ⟨a, b, c, d, e⟩ := by
  cases a <;> cases b <;> cases c <;> cases d <;> cases e <;> decide

/-- The 32-bit image is in range. -/
theorem El3356.toU32_lt (v : Int) : El3356.toU32 v < 4294967296 := by
  unfold El3356.toU32; omega

/-- Two's-complement round trip for `i32` values. -/
theorem El3356.fromU32_toU32 (v : Int) (h1 : -2147483648 ≤ v) (h2 : v < 2147483648) :
    El3356.fromU32 (El3356.toU32 v) = v := by
  unfold El3356.toU32 El3356.fromU32
  split <;> omega

/-- The 16-bit image is in range. -/
theorem I550.toU16_lt (v : Int) : I550.toU16 v < 65536 := by
  unfold I550.toU16; omega

/-- Two's-complement round trip for `i16` values. -/
theorem I550.fromU16_toU16 (v : Int) (h1 : -32768 ≤ v) (h2 : v < 32768) :
    I550.fromU16 (I550.toU16 v) = v := by
  unfold I550.toU16 I550.fromU16
  split <;> omega

/-- EL3356 input-PDO round trip for in-range `raw_value`. -/
theorem El3356.inputPdo_unpack_pack (p : El3356.InputPdo)
    (h1 : -2147483648 ≤ p.raw_value) (h2 : p.raw_value < 2147483648) :
    El3356.InputPdo.unpack (El3356.InputPdo.pack p) = some p := by
  obtain ⟨s, v⟩ := p
  obtain ⟨a, b, c, d, e, f, g⟩ := s
  have hs := El3356.statusWord_packBits_lt a b c d e f g
  have hv := El3356.toU32_lt v
  rw [El3356.InputPdo.pack, El3356.InputPdo.unpack, if_pos (Codec.length_bytesOfNat 6 _)]
  have hn : Codec.natOfBytes (Codec.bytesOfNat 6
      (El3356.StatusWord.packBits ⟨a, b, c, d, e, f, g⟩ + 65536 * El3356.toU32 v)) =
      El3356.StatusWord.packBits ⟨a, b, c, d, e, f, g⟩ + 65536 * El3356.toU32 v := by
    rw [Codec.natOfBytes_bytesOfNat]
    have h6 : (256 : Nat) ^ 6 = 281474976710656 := by norm_num
    rw [h6]
    omega
  simp only [hn]
  have hlow : (El3356.StatusWord.packBits ⟨a, b, c, d, e, f, g⟩ + 65536 * El3356.toU32 v)
      % 65536 = El3356.StatusWord.packBits ⟨a, b, c, d, e, f, g⟩ := by omega
  have hhigh : (El3356.StatusWord.packBits ⟨a, b, c, d, e, f, g⟩ + 65536 * El3356.toU32 v)
      / 65536 % 4294967296 = El3356.toU32 v := by omega
  rw [hlow, hhigh, El3356.statusWord_unpackBits_packBits, El3356.fromU32_toU32 v h1 h2]

/-- EL3356 output-PDO round trip. -/
theorem El3356.outputPdo_unpack_pack (p : El3356.OutputPdo) :
    El3356.OutputPdo.unpack (El3356.OutputPdo.pack p) = some p := by
  obtain ⟨c⟩ := p
  obtain ⟨a, b, x, d, e⟩ := c
  have hc := El3356.controlWord_packBits_lt a b x d e
  rw [El3356.OutputPdo.pack, El3356.OutputPdo.unpack, if_pos (Codec.length_bytesOfNat 2 _)]
  have hn : Codec.natOfBytes (Codec.bytesOfNat 2
      (El3356.ControlWord.packBits ⟨a, b, x, d, e⟩)) % 65536 =
      El3356.ControlWord.packBits ⟨a, b, x, d, e⟩ := by
    rw [Codec.natOfBytes_bytesOfNat]
    have h2 : (256 : Nat) ^ 2 = 65536 := by norm_num
    rw [h2]
    omega
  rw [hn, El3356.controlWord_unpackBits_packBits]

/-- i550 output-PDO round trip for a 16-bit control word and in-range speed. -/
theorem I550.i550OutputPdo_unpack_pack (c : Nat) (v : Int)
    (hc : c < 65536) (h1 : -32768 <= v) (h2 : v < 32768) :
    I550.OutputPdo.unpack (I550.OutputPdo.pack (I550.OutputPdo.mk c v)) =
      some (I550.OutputPdo.mk c v) := by
  have hv := I550.toU16_lt v
  rw [I550.OutputPdo.pack, I550.OutputPdo.unpack, if_pos (Codec.length_bytesOfNat 4 _)]
  have hn : Codec.natOfBytes (Codec.bytesOfNat 4 (c + 65536 * I550.toU16 v)) =
      c + 65536 * I550.toU16 v := by
    rw [Codec.natOfBytes_bytesOfNat]
    have h4 : (256 : Nat) ^ 4 = 4294967296 := by norm_num
    rw [h4]
    omega
  simp only [hn]
  have hlow : (c + 65536 * I550.toU16 v) % 65536 = c := by omega
  have hhigh : (c + 65536 * I550.toU16 v) / 65536 % 65536 = I550.toU16 v := by omega
  rw [hlow, hhigh, I550.fromU16_toU16 v h1 h2]

/-- i550 input-PDO round trip for a 16-bit status word and in-range speeds. -/
theorem I550.i550InputPdo_unpack_pack (s : Nat) (v w : Int)
    (hs : s < 65536)
    (h1 : -32768 <= v) (h2 : v < 32768)
    (h3 : -32768 <= w) (h4 : w < 32768) :
    I550.InputPdo.unpack (I550.InputPdo.pack (I550.InputPdo.mk s v w)) =
      some (I550.InputPdo.mk s v w) := by
  have hv := I550.toU16_lt v
  have hw := I550.toU16_lt w
  rw [I550.InputPdo.pack, I550.InputPdo.unpack, if_pos (Codec.length_bytesOfNat 6 _)]
  have hn : Codec.natOfBytes (Codec.bytesOfNat 6
      (s + 65536 * I550.toU16 v + 4294967296 * I550.toU16 w)) =
      s + 65536 * I550.toU16 v + 4294967296 * I550.toU16 w := by
    rw [Codec.natOfBytes_bytesOfNat]
    have h6 : (256 : Nat) ^ 6 = 281474976710656 := by norm_num
    rw [h6]
    omega
  simp only [hn]
  have hlow : (s + 65536 * I550.toU16 v + 4294967296 * I550.toU16 w) % 65536 = s := by omega
  have hmid : (s + 65536 * I550.toU16 v + 4294967296 * I550.toU16 w) / 65536 % 65536 =
      I550.toU16 v := by omega
  have hhigh : (s + 65536 * I550.toU16 v + 4294967296 * I550.toU16 w) / 4294967296 % 65536 =
      I550.toU16 w := by omega
  rw [hlow, hmid, hhigh, I550.fromU16_toU16 v h1 h2, I550.fromU16_toU16 w h3 h4]

/-! ## Lemmas: calibration polling loop -/

/-- Every action emitted by the polling loop is a status read, a response
read, or the fixed 1 ms sleep. -/
theorem El3356.pollLoop_ops (polls : Nat → Nat × Nat) :
    ∀ fuel i op, op ∈ (El3356.pollLoop polls i fuel).1 →
      op = El3356.SdoOp.sdoRead 0xFB00 0x02 ∨
      op = El3356.SdoOp.sdoRead 0xFB00 0x03 ∨
      op = El3356.SdoOp.sleepMs 1 := by
  intro fuel
  induction fuel with
  | zero => intro i op h; simp [El3356.pollLoop] at h
  | succ k ih =>
    intro i op h
    rw [El3356.pollLoop] at h
    by_cases hz : (polls i).1 = 0 ∧ (polls i).2 = 0
    · rw [if_pos hz] at h
      simp only [List.mem_cons, List.not_mem_nil, or_false] at h
      rcases h with h | h
      · exact Or.inl h
      · exact Or.inr (Or.inl h)
    · rw [if_neg hz] at h
      simp only [List.mem_cons] at h
      rcases h with h | h | h | h
      · exact Or.inl h
      · exact Or.inr (Or.inl h)
      · exact Or.inr (Or.inr h)
      · exact ih (i + 1) op h
/-- The polling loop reports success exactly when some iteration within
fuel reads `0` from both the status and the response register. -/
theorem El3356.pollLoop_succ_iff (polls : Nat → Nat × Nat) :
    ∀ fuel i, (El3356.pollLoop polls i fuel).2 = true ↔
      ∃ k, k < fuel ∧ (polls (i + k)).1 = 0 ∧ (polls (i + k)).2 = 0 := by
  intro fuel
  induction fuel with
  | zero =>
    intro i
    simp [El3356.pollLoop]
  | succ m ih =>
    intro i
    rw [El3356.pollLoop]
    by_cases hz : (polls i).1 = 0 ∧ (polls i).2 = 0
    · rw [if_pos hz]
      simp only [true_iff]
      exact ⟨0, by omega, by simpa using hz⟩
    · rw [if_neg hz]
      simp only []
      rw [ih (i + 1)]
      constructor
      · rintro ⟨k, hk, h1, h2⟩
        exact ⟨k + 1, by omega, by rw [show i + (k + 1) = i + 1 + k by omega]; exact h1,
          by rw [show i + (k + 1) = i + 1 + k by omega]; exact h2⟩
      · rintro ⟨k, hk, h1, h2⟩
        match k with
        | 0 => exact absurd ⟨h1, h2⟩ hz
        | k + 1 =>
          exact ⟨k, by omega, by rw [show i + 1 + k = i + (k + 1) by omega]; exact h1,
            by rw [show i + 1 + k = i + (k + 1) by omega]; exact h2⟩

/-! ## Claim theorems -/

/-- C1: For every process-data value representable within the declared
field widths of the EL3356 and i550 layouts, decoding the encoding yields
the value again, and encoding always produces a buffer of exactly the
declared byte length (6/2 bytes for the EL3356 input/output PDOs, 4/6
bytes for the i550 output/input PDOs). -/
theorem pdo_codec_roundtrip
    (p : El3356.InputPdo) (q : El3356.OutputPdo)
    (r : I550.OutputPdo) (s : I550.InputPdo)
    (hp1 : -2147483648 <= p.raw_value) (hp2 : p.raw_value < 2147483648)
    (hr : r.control_word < 65536)
    (hr1 : -32768 <= r.speed) (hr2 : r.speed < 32768)
    (hs : s.status_word < 65536)
    (hs1 : -32768 <= s.actual_speed) (hs2 : s.actual_speed < 32768)
    (hs3 : -32768 <= s.error) (hs4 : s.error < 32768) :
    El3356.InputPdo.unpack (El3356.InputPdo.pack p) = some p ∧
    (El3356.InputPdo.pack p).length = 6 ∧
    El3356.OutputPdo.unpack (El3356.OutputPdo.pack q) = some q ∧
    (El3356.OutputPdo.pack q).length = 2 ∧
    I550.OutputPdo.unpack (I550.OutputPdo.pack r) = some r ∧
    (I550.OutputPdo.pack r).length = 4 ∧
    I550.InputPdo.unpack (I550.InputPdo.pack s) = some s ∧
    (I550.InputPdo.pack s).length = 6 := by
  obtain ⟨rc, rv⟩ := r
  obtain ⟨ss, sv, sw⟩ := s
  refine ⟨El3356.inputPdo_unpack_pack p hp1 hp2, ?_,
    El3356.outputPdo_unpack_pack q, ?_,
    I550.i550OutputPdo_unpack_pack rc rv hr hr1 hr2, ?_,
    I550.i550InputPdo_unpack_pack ss sv sw hs hs1 hs2 hs3 hs4, ?_⟩
  · rw [El3356.InputPdo.pack]; exact Codec.length_bytesOfNat 6 _
  · rw [El3356.OutputPdo.pack]; exact Codec.length_bytesOfNat 2 _
  · rw [I550.OutputPdo.pack]; exact Codec.length_bytesOfNat 4 _
  · rw [I550.InputPdo.pack]; exact Codec.length_bytesOfNat 6 _

/-- Witness for C1 at concrete PDO values, including a negative raw
load-cell value and negative i550 speeds. -/
theorem pdo_codec_roundtrip_witness :
    El3356.InputPdo.unpack (El3356.InputPdo.pack
      ⟨⟨true, false, true, false, true, false, true⟩, -123456⟩) =
      some ⟨⟨true, false, true, false, true, false, true⟩, -123456⟩ ∧
    (El3356.InputPdo.pack
      ⟨⟨true, false, true, false, true, false, true⟩, -123456⟩).length = 6 ∧
    El3356.OutputPdo.unpack (El3356.OutputPdo.pack
      ⟨⟨false, true, false, false, true⟩⟩) =
      some ⟨⟨false, true, false, false, true⟩⟩ ∧
    (El3356.OutputPdo.pack ⟨⟨false, true, false, false, true⟩⟩).length = 2 ∧
    I550.OutputPdo.unpack (I550.OutputPdo.pack ⟨4660, -5⟩) = some ⟨4660, -5⟩ ∧
    (I550.OutputPdo.pack ⟨4660, -5⟩).length = 4 ∧
    I550.InputPdo.unpack (I550.InputPdo.pack ⟨7, 1000, -1⟩) = some ⟨7, 1000, -1⟩ ∧
    (I550.InputPdo.pack ⟨7, 1000, -1⟩).length = 6 :=
  pdo_codec_roundtrip
    ⟨⟨true, false, true, false, true, false, true⟩, -123456⟩
    ⟨⟨false, true, false, false, true⟩⟩ ⟨4660, -5⟩ ⟨7, 1000, -1⟩
    (by norm_num) (by norm_num) (by norm_num) (by norm_num) (by norm_num)
    (by norm_num) (by norm_num) (by norm_num) (by norm_num) (by norm_num)

/-- C2: `El3356::zero_calibrate` emits, in this order: the CoE factory
reset (`0x1011:01` := `0x64616F6C`), unity scale factor (`0x8000:27`),
unity gain (`0x8000:21`), zero tare (`0x8000:22`), the strongest filter
IIR8 (`0x8000:11`), the configured nominal load (`0x8000:24`), command
`0x0101` to `0xFB00:01`; then it only polls `0xFB00:02` / `0xFB00:03`
with a fixed 1 ms sleep, and returns success exactly when some poll
iteration reads `0` from both registers. -/
theorem el3356_zero_calibrate_protocol (nominal : Rat)
    (polls : Nat → Nat × Nat) (fuel : Nat) :
    (El3356.zero_calibrate nominal polls fuel).1 =
      [El3356.SdoOp.sdoWrite 0x1011 0x01 (El3356.WireVal.vU32 0x64616F6C),
       El3356.SdoOp.sdoWrite 0x8000 0x27 (El3356.WireVal.vF32 1),
       El3356.SdoOp.sdoWrite 0x8000 0x21 (El3356.WireVal.vF32 1),
       El3356.SdoOp.sdoWrite 0x8000 0x22 (El3356.WireVal.vF32 0),
       El3356.SdoOp.sdoWrite 0x8000 0x11 (El3356.WireVal.vU16 El3356.Filter.IIR8.code),
       El3356.SdoOp.sdoWrite 0x8000 0x24 (El3356.WireVal.vF32 nominal),
       El3356.SdoOp.sdoWrite 0xFB00 0x01 (El3356.WireVal.vU16 0x0101)] ++
      (El3356.pollLoop polls 0 fuel).1 ∧
    (∀ op ∈ (El3356.pollLoop polls 0 fuel).1,
      op = El3356.SdoOp.sdoRead 0xFB00 0x02 ∨
      op = El3356.SdoOp.sdoRead 0xFB00 0x03 ∨
      op = El3356.SdoOp.sleepMs 1) ∧
    ((El3356.zero_calibrate nominal polls fuel).2 = true ↔
      ∃ k, k < fuel ∧ (polls k).1 = 0 ∧ (polls k).2 = 0) := by
  refine ⟨rfl, fun op h => El3356.pollLoop_ops polls fuel 0 op h, ?_⟩
  show (El3356.pollLoop polls 0 fuel).2 = true ↔ _
  rw [El3356.pollLoop_succ_iff polls fuel 0]
  simp only [Nat.zero_add]

/-- Witness for C2: with an oracle that acknowledges immediately, the
zero-balance phase succeeds and its trace is the seven writes followed
by one status read and one response read. -/
theorem el3356_zero_calibrate_protocol_witness :
    (El3356.zero_calibrate 5 (fun _ => (0, 0)) 1).2 = true ∧
    (El3356.zero_calibrate 5 (fun _ => (0, 0)) 1).1 =
      [El3356.SdoOp.sdoWrite 0x1011 0x01 (El3356.WireVal.vU32 0x64616F6C),
       El3356.SdoOp.sdoWrite 0x8000 0x27 (El3356.WireVal.vF32 1),
       El3356.SdoOp.sdoWrite 0x8000 0x21 (El3356.WireVal.vF32 1),
       El3356.SdoOp.sdoWrite 0x8000 0x22 (El3356.WireVal.vF32 0),
       El3356.SdoOp.sdoWrite 0x8000 0x11 (El3356.WireVal.vU16 9),
       El3356.SdoOp.sdoWrite 0x8000 0x24 (El3356.WireVal.vF32 5),
       El3356.SdoOp.sdoWrite 0xFB00 0x01 (El3356.WireVal.vU16 0x0101),
       El3356.SdoOp.sdoRead 0xFB00 0x02, El3356.SdoOp.sdoRead 0xFB00 0x03] :=
  ⟨(el3356_zero_calibrate_protocol 5 (fun _ => (0, 0)) 1).2.2.mpr
      ⟨0, by omega, rfl, rfl⟩,
   by rw [(el3356_zero_calibrate_protocol 5 (fun _ => (0, 0)) 1).1]; rfl⟩

/-- C3: `El3356::calibrate` first writes the caller-supplied reference
load to `0x8000:28` and command `0x0102` to `0xFB00:01`; it polls the
same `0xFB00:02` / `0xFB00:03` pair, and on success the complete trace
ends with the command-register reset (`0xFB00:01` := `0x0000`) followed
— last of all — by the caller-selected operating filter (`0x8000:11`).
Success holds exactly when some poll iteration reads `0` twice. -/
theorem el3356_span_calibrate_protocol (load : Rat) (filter : El3356.Filter)
    (polls : Nat → Nat × Nat) (fuel : Nat) :
    ((El3356.calibrate load filter polls fuel).1.take 2 =
      [El3356.SdoOp.sdoWrite 0x8000 0x28 (El3356.WireVal.vF32 load),
       El3356.SdoOp.sdoWrite 0xFB00 0x01 (El3356.WireVal.vU16 0x0102)]) ∧
    ((El3356.calibrate load filter polls fuel).2 = true →
      (El3356.calibrate load filter polls fuel).1 =
        [El3356.SdoOp.sdoWrite 0x8000 0x28 (El3356.WireVal.vF32 load),
         El3356.SdoOp.sdoWrite 0xFB00 0x01 (El3356.WireVal.vU16 0x0102)] ++
        (El3356.pollLoop polls 0 fuel).1 ++
        [El3356.SdoOp.sdoWrite 0xFB00 0x01 (El3356.WireVal.vU16 0x0000),
         El3356.SdoOp.sdoWrite 0x8000 0x11 (El3356.WireVal.vU16 filter.code)]) ∧
    (∀ op ∈ (El3356.pollLoop polls 0 fuel).1,
      op = El3356.SdoOp.sdoRead 0xFB00 0x02 ∨
      op = El3356.SdoOp.sdoRead 0xFB00 0x03 ∨
      op = El3356.SdoOp.sleepMs 1) ∧
    ((El3356.calibrate load filter polls fuel).2 = true ↔
      ∃ k, k < fuel ∧ (polls k).1 = 0 ∧ (polls k).2 = 0) := by
  have hiff : (El3356.pollLoop polls 0 fuel).2 = true ↔
      ∃ k, k < fuel ∧ (polls k).1 = 0 ∧ (polls k).2 = 0 := by
    rw [El3356.pollLoop_succ_iff polls fuel 0]
    simp only [Nat.zero_add]
  unfold El3356.calibrate
  by_cases h : (El3356.pollLoop polls 0 fuel).2 = true
  · simp only [h, if_true]
    refine ⟨rfl, fun _ => by simp [List.append_assoc], ?_, ?_⟩
    · exact fun op hop => El3356.pollLoop_ops polls fuel 0 op hop
    · simpa using hiff.mp h
  · rw [Bool.not_eq_true] at h
    simp only [h, Bool.false_eq_true, if_false]
    refine ⟨rfl, by simp, ?_, ?_⟩
    · exact fun op hop => El3356.pollLoop_ops polls fuel 0 op hop
    · simp only [false_iff]
      intro hex
      rw [← hiff] at hex
      rw [h] at hex
      exact Bool.false_ne_true hex

/-- Witness for C3: with an immediately acknowledging oracle the span
phase succeeds and its trace is the two writes, one poll (two reads),
the command-register reset, and the filter write last. -/
theorem el3356_span_calibrate_protocol_witness :
    (El3356.calibrate 3 El3356.Filter.FIR50 (fun _ => (0, 0)) 1).2 = true ∧
    (El3356.calibrate 3 El3356.Filter.FIR50 (fun _ => (0, 0)) 1).1 =
      [El3356.SdoOp.sdoWrite 0x8000 0x28 (El3356.WireVal.vF32 3),
       El3356.SdoOp.sdoWrite 0xFB00 0x01 (El3356.WireVal.vU16 0x0102),
       El3356.SdoOp.sdoRead 0xFB00 0x02, El3356.SdoOp.sdoRead 0xFB00 0x03,
       El3356.SdoOp.sdoWrite 0xFB00 0x01 (El3356.WireVal.vU16 0x0000),
       El3356.SdoOp.sdoWrite 0x8000 0x11 (El3356.WireVal.vU16 0)] := by
  have h := el3356_span_calibrate_protocol 3 El3356.Filter.FIR50 (fun _ => (0, 0)) 1
  have hs : (El3356.calibrate 3 El3356.Filter.FIR50 (fun _ => (0, 0)) 1).2 = true :=
    h.2.2.2.mpr ⟨0, by omega, rfl, rfl⟩
  exact ⟨hs, by rw [h.2.1 hs]; rfl⟩

/-- Helper for C4: any run of the `Calibrate` machine that ends in the
`Calibration` state either started there or visited `ZeroCalibration`
at some prefix of the event list. -/
theorem El3356.calRun_to_calibration (evs : List El3356.CalEvent) :
    ∀ s, El3356.calRun s evs = El3356.CalState.Calibration →
      s = El3356.CalState.Calibration ∨
      ∃ i, El3356.calRun s (evs.take i) = El3356.CalState.ZeroCalibration := by
  have key : ∀ (s : El3356.CalState) (e : El3356.CalEvent),
      (El3356.calStep s e).getD s = El3356.CalState.Calibration →
      s = El3356.CalState.Calibration ∨ s = El3356.CalState.ZeroCalibration := by decide
  induction evs with
  | nil => intro s h; exact Or.inl h
  | cons e es ih =>
    intro s h
    rw [El3356.calRun] at h
    rcases ih ((El3356.calStep s e).getD s) h with h1 | ⟨i, hi⟩
    · rcases key s e h1 with hs | hs
      · exact Or.inl hs
      · subst hs; exact Or.inr ⟨0, rfl⟩
    · exact Or.inr ⟨i + 1, by rw [List.take_succ_cons, El3356.calRun]; exact hi⟩

/-- C4: in the `Calibrate` state machine, the only transition into the
`Calibration` state is `ZeroCalibration + SetCalibration`, the only way
into `ZeroCalibration` is from `Idle`, and consequently every event
sequence that drives the machine from `Idle` into `Calibration` passes
through `ZeroCalibration` at some prefix — span calibration is
unreachable without a completed zero balance first. -/
theorem calibrate_requires_zero_first :
    (∀ s e, El3356.calStep s e = some El3356.CalState.Calibration →
      s = El3356.CalState.ZeroCalibration ∧ e = El3356.CalEvent.SetCalibration) ∧
    (∀ s e, El3356.calStep s e = some El3356.CalState.ZeroCalibration →
      s = El3356.CalState.Idle ∧ e = El3356.CalEvent.SetZeroCalibration) ∧
    (∀ evs : List El3356.CalEvent,
      El3356.calRun El3356.CalState.Idle evs = El3356.CalState.Calibration →
      ∃ i, El3356.calRun El3356.CalState.Idle (evs.take i) =
        El3356.CalState.ZeroCalibration) := by
  refine ⟨by decide, by decide, ?_⟩
  intro evs h
  rcases El3356.calRun_to_calibration evs El3356.CalState.Idle h with h1 | h2
  · exact absurd h1 (by decide)
  · exact h2

/-- Witness for C4: the two-event sequence zero-then-span reaches
`Calibration`, and its one-event prefix indeed sits in
`ZeroCalibration`. -/
theorem calibrate_requires_zero_first_witness :
    ∃ i, El3356.calRun El3356.CalState.Idle
      (List.take i [El3356.CalEvent.SetZeroCalibration, El3356.CalEvent.SetCalibration]) =
      El3356.CalState.ZeroCalibration :=
  calibrate_requires_zero_first.2.2
    [El3356.CalEvent.SetZeroCalibration, El3356.CalEvent.SetCalibration] (by decide)

/-- C9: in every declared process-data layout of the EL3356 load-cell
driver, the field bit widths plus pre/post skips sum exactly to the
declared byte length (16 bits for the 2-byte `StatusWord` and 2-byte
`ControlWord`, 48 bits for the 6-byte `InputPdo`, 16 bits for the 2-byte
`OutputPdo`); encoding always produces exactly the declared number of
bytes and decoding rejects any slice of a different length. -/
theorem el3356_layout_bits_exact :
    El3356.layoutBits El3356.statusWordFields = 8 * El3356.statusWordBytes ∧
    El3356.layoutBits El3356.controlWordFields = 8 * El3356.controlWordBytes ∧
    El3356.layoutBits El3356.inputPdoFields = 8 * El3356.inputPdoBytes ∧
    El3356.layoutBits El3356.outputPdoFields = 8 * El3356.outputPdoBytes ∧
    (∀ p : El3356.InputPdo, (El3356.InputPdo.pack p).length = El3356.inputPdoBytes) ∧
    (∀ q : El3356.OutputPdo, (El3356.OutputPdo.pack q).length = El3356.outputPdoBytes) ∧
    (∀ bs : List Nat, bs.length ≠ El3356.inputPdoBytes → El3356.InputPdo.unpack bs = none) ∧
    (∀ bs : List Nat, bs.length ≠ El3356.outputPdoBytes → El3356.OutputPdo.unpack bs = none) := by
  refine ⟨by decide, by decide, by decide, by decide, ?_, ?_, ?_, ?_⟩
  · intro p; rw [El3356.InputPdo.pack]; exact Codec.length_bytesOfNat 6 _
  · intro q; rw [El3356.OutputPdo.pack]; exact Codec.length_bytesOfNat 2 _
  · intro bs h
    rw [El3356.InputPdo.unpack, if_neg (by simpa [El3356.inputPdoBytes] using h)]
  · intro bs h
    rw [El3356.OutputPdo.unpack, if_neg (by simpa [El3356.outputPdoBytes] using h)]

/-- Witness for C9: a 5-byte slice is rejected by the 6-byte input-PDO
decoder and a 3-byte slice by the 2-byte output-PDO decoder. -/
theorem el3356_layout_bits_exact_witness :
    El3356.InputPdo.unpack [1, 2, 3, 4, 5] = none ∧
    El3356.OutputPdo.unpack [1, 2, 3] = none :=
  ⟨el3356_layout_bits_exact.2.2.2.2.2.2.1 [1, 2, 3, 4, 5] (by decide),
   el3356_layout_bits_exact.2.2.2.2.2.2.2 [1, 2, 3] (by decide)⟩

/-- Helper for C5: the setup loop over `i` successes followed by a
failure visits exactly the indices `idx, idx+1, …, idx+i` in order and
aborts with the failing index and cause. -/
theorem Bus.setupLoop_replicate_err {E : Type} (e : E) :
    ∀ (i idx : Nat) (rest : List (Except E Unit)),
      Bus.setupLoop (List.replicate i (Except.ok ()) ++ Except.error e :: rest) idx =
        (List.range' idx (i + 1), Except.error (idx + i, e)) := by
  intro i
  induction i with
  | zero =>
    intro idx rest
    simp [Bus.setupLoop, List.range']
  | succ m ih =>
    intro idx rest
    rw [List.replicate_succ, List.cons_append]
    show (idx :: (Bus.setupLoop _ (idx + 1)).1, (Bus.setupLoop _ (idx + 1)).2) = _
    rw [ih (idx + 1) rest]
    rw [List.range'_succ]
    simp only [Prod.mk.injEq, List.cons.injEq, true_and]
    exact ⟨rfl, by rw [show idx + 1 + m = idx + (m + 1) by omega]⟩

/-- Helper for C5: when attempts `start … start+m-1` fail and attempt
`start+m` succeeds within fuel, the retry loop emits each failing
attempt followed by the fixed 1000 ms sleep, then the succeeding
attempt, and reports success. -/
theorem Bus.initRetry_first_success (success : Nat → Bool) :
    ∀ (m fuel start : Nat), m < fuel →
      (∀ j, j < m → success (start + j) = false) → success (start + m) = true →
      Bus.initRetry success start fuel =
        (((List.range' start m).flatMap fun j =>
            [Bus.MainOp.initAttempt j, Bus.MainOp.sleepMs 1000]) ++
          [Bus.MainOp.initAttempt (start + m)], true) := by
  intro m
  induction m with
  | zero =>
    intro fuel start hlt _ hs
    obtain ⟨f, rfl⟩ : ∃ f, fuel = f + 1 := ⟨fuel - 1, by omega⟩
    simp only [Nat.add_zero] at hs
    rw [Bus.initRetry]
    rw [if_pos hs]
    simp [List.range']
  | succ n ih =>
    intro fuel start hlt hf hs
    obtain ⟨f, rfl⟩ : ∃ f, fuel = f + 1 := ⟨fuel - 1, by omega⟩
    rw [Bus.initRetry]
    have h0 : success start = false := hf 0 (by omega)
    rw [if_neg (by rw [h0]; exact Bool.false_ne_true)]
    rw [ih f (start + 1) (by omega)
      (fun j hj => by
        rw [show start + 1 + j = start + (j + 1) by omega]
        exact hf (j + 1) (by omega))
      (by rw [show start + 1 + n = start + (n + 1) by omega]; exact hs)]
    rw [List.range'_succ]
    simp only [List.flatMap_cons, List.cons_append, List.append_assoc, List.nil_append,
      Prod.mk.injEq, show start + 1 + n = start + (n + 1) from by omega]

/-- C5: `Bus::init` runs `setup` on the devices sequentially in
bus-enumeration order with sequential indices 0, 1, …; the first
failure (device `i`, cause `e`) aborts the whole bring-up with exactly
`(i, e)` and the transition to operational is never reached; and the
caller's retry loop sleeps a fixed 1000 ms after every failed attempt,
retrying until an attempt succeeds. -/
theorem bus_init_first_failure_aborts_and_retries {E : Type}
    (i : Nat) (e : E) (rest : List (Except E Unit))
    (success : Nat → Bool) (fuel k : Nat)
    (hk : k < fuel) (hf : ∀ j, j < k → success j = false)
    (hs : success k = true) :
    Bus.init (List.replicate i (Except.ok ()) ++ Except.error e :: rest) =
      { setupOrder := List.range (i + 1)
        result := Except.error (i, e)
        enteredOperational := false } ∧
    Bus.initRetry success 0 fuel =
      (((List.range k).flatMap fun j =>
          [Bus.MainOp.initAttempt j, Bus.MainOp.sleepMs 1000]) ++
        [Bus.MainOp.initAttempt k], true) := by
  constructor
  · rw [Bus.init]
    rw [Bus.setupLoop_replicate_err e i 0 rest]
    rw [List.range_eq_range']
    simp
  · have h := Bus.initRetry_first_success success k fuel 0 hk
      (fun j hj => by simpa using hf j hj) (by simpa using hs)
    rw [h, List.range_eq_range']
    simp

/-- Witness for C5: three devices where device index 1 fails setup give
`InitError(1, …)` with setups invoked on indices 0 and 1 only and no
operational transition; the retry loop with a first failed attempt
sleeps 1000 ms once and succeeds on attempt 1. -/
theorem bus_init_first_failure_aborts_and_retries_witness :
    Bus.init [Except.ok (), Except.error "register write failed", Except.ok ()] =
      { setupOrder := [0, 1]
        result := Except.error (1, "register write failed")
        enteredOperational := false } ∧
    Bus.initRetry (fun k => decide (k = 1)) 0 2 =
      ([Bus.MainOp.initAttempt 0, Bus.MainOp.sleepMs 1000, Bus.MainOp.initAttempt 1],
        true) := by
  have h := bus_init_first_failure_aborts_and_retries
    (E := String) 1 "register write failed" [Except.ok ()]
    (fun k => decide (k = 1)) 2 1 (by omega)
    (fun j hj => by
      have hj0 : j = 0 := by omega
      subst hj0
      rfl) (by rfl)
  refine ⟨?_, ?_⟩
  · have h1 := h.1
    simpa using h1
  · have h2 := h.2
    simpa using h2

/-- Helper for C6: a tick always re-arms at least one full period past
the pending deadline (both when it waited and when it skipped ahead). -/
theorem Bus.tickFire_deadline_ge (p d now : Nat) :
    d + p ≤ (Bus.tickFire p d now).2 := by
  unfold Bus.tickFire
  split
  · exact Nat.le_refl _
  · show d + p ≤ d + p * ((now - d) / p + 1)
    have h : p * ((now - d) / p + 1) = p * ((now - d) / p) + p := by ring
    omega

/-- Helper for C6: the re-armed deadline stays on the period grid of the
pending deadline. -/
theorem Bus.tickFire_deadline_grid (p d now : Nat) :
    ∃ m, (Bus.tickFire p d now).2 = d + p * m := by
  unfold Bus.tickFire
  split
  · exact ⟨1, by ring⟩
  · exact ⟨(now - d) / p + 1, rfl⟩

/-- Helper for C6: a tick never completes before its pending deadline. -/
theorem Bus.tickFire_fire_ge (p d now : Nat) :
    d ≤ (Bus.tickFire p d now).1 := by
  unfold Bus.tickFire
  split
  · exact Nat.le_refl _
  · omega

/-- Helper for C6: after `k` iterations the pending deadline has
advanced by at least `k` whole periods and still lies on the period
grid anchored at the start time. -/
theorem Bus.runSeq_deadline (p : Nat) (delays : Nat → Nat) (t0 : Nat) :
    ∀ k, t0 + k * p ≤ (Bus.runSeq p delays t0 k).2 ∧
      ∃ m, (Bus.runSeq p delays t0 k).2 = t0 + p * m := by
  intro k
  induction k with
  | zero =>
    constructor
    · show t0 + 0 * p ≤ (t0, t0).2
      omega
    · refine ⟨0, ?_⟩
      show (t0, t0).2 = t0 + p * 0
      omega
  | succ n ih =>
    obtain ⟨hge, m, hm⟩ := ih
    have hstep : Bus.runSeq p delays t0 (n + 1) =
        Bus.tickFire p (Bus.runSeq p delays t0 n).2
          ((Bus.runSeq p delays t0 n).1 + delays n) := rfl
    constructor
    · have h1 := Bus.tickFire_deadline_ge p (Bus.runSeq p delays t0 n).2
        ((Bus.runSeq p delays t0 n).1 + delays n)
      rw [hstep]
      have : t0 + (n + 1) * p = t0 + n * p + p := by ring
      omega
    · obtain ⟨m2, hm2⟩ := Bus.tickFire_deadline_grid p (Bus.runSeq p delays t0 n).2
        ((Bus.runSeq p delays t0 n).1 + delays n)
      exact ⟨m + m2, by rw [hstep, hm2, hm]; ring⟩

/-- C6: `Bus::run` paces with a skip-missed-ticks policy: under any
injected per-iteration delay, consecutive tick deadlines advance by at
least one full period, every deadline stays on the period grid anchored
at the start time, and the `k`-th iteration's tick cannot complete
before `k` full periods have elapsed — so `run` performs at most one
frame-exchange-plus-dispatch per tick period and never bursts catch-up
iterations after a stall. -/
theorem run_skip_missed_ticks (p : Nat)
    (delays : Nat → Nat) (t0 : Nat) :
    (∀ k, (Bus.runSeq p delays t0 k).2 + p ≤ (Bus.runSeq p delays t0 (k + 1)).2) ∧
    (∀ k, ∃ m, (Bus.runSeq p delays t0 k).2 = t0 + p * m) ∧
    (∀ k, t0 + k * p ≤ (Bus.runSeq p delays t0 (k + 1)).1) := by
  refine ⟨fun k => ?_, fun k => (Bus.runSeq_deadline p delays t0 k).2, fun k => ?_⟩
  · exact Bus.tickFire_deadline_ge p (Bus.runSeq p delays t0 k).2
      ((Bus.runSeq p delays t0 k).1 + delays k)
  · have h1 := Bus.tickFire_fire_ge p (Bus.runSeq p delays t0 k).2
      ((Bus.runSeq p delays t0 k).1 + delays k)
    have h2 := (Bus.runSeq_deadline p delays t0 k).1
    have hstep : Bus.runSeq p delays t0 (k + 1) =
        Bus.tickFire p (Bus.runSeq p delays t0 k).2
          ((Bus.runSeq p delays t0 k).1 + delays k) := rfl
    rw [hstep]
    omega


/-- Counterexample for C7 as stated: a length mismatch is NOT fatal to
the tick loop for every device except the digital-IO one — the i550
drive returns `Ok` on a 5-byte input (non-fatal), while the digital-IO
device itself returns an error on its first mismatched cycle, and that
error aborts the whole `?`-propagating dispatch, taking down devices
after it. -/
theorem length_mismatch_policy_counterexample :
    (I550.process_data 0 [0, 0, 0, 0, 0] [0, 0, 0, 0]).result = Except.ok () ∧
    (El1xxx.process_data 1 false [0, 0]).result =
      Except.error "Input data length mismatch" ∧
    Bus.processAll [(El1xxx.process_data 1 false [0, 0]).result, Except.ok ()] =
      Except.error "Input data length mismatch" :=
  ⟨rfl, rfl, rfl⟩

/-- C7 (amended): a raw-buffer length mismatch aborts the whole tick
loop only for the digital-IO device, and only on a cycle where its
one-shot error flag is clear: it then logs the mismatch, sets the flag
and returns an error that propagates out of the dispatch loop. The I550
drive degrades instead: on a mismatched input or output slice it warns
(every such tick) and returns `Ok`, failing only its own cycle. On a
matching length the digital-IO device clears the flag and returns `Ok`,
but publishes nothing — its per-channel send is disabled in the code. -/
theorem length_mismatch_policy_amended
    (arrLen : Nat) (input : List Nat) (hmis : input.length ≠ arrLen)
    (others : List (Except String Unit))
    (cnt : Nat) (inp out : List Nat) (hio : out.length ≠ 4 ∨ inp.length ≠ 6)
    (good : List Nat) (hgood : good.length = arrLen) (err : Bool) :
    (El1xxx.process_data arrLen false input).logged = true ∧
    (El1xxx.process_data arrLen false input).errFlag = true ∧
    (El1xxx.process_data arrLen false input).result =
      Except.error "Input data length mismatch" ∧
    Bus.processAll ((El1xxx.process_data arrLen false input).result :: others) =
      Except.error "Input data length mismatch" ∧
    (I550.process_data cnt inp out).warned = true ∧
    (I550.process_data cnt inp out).result = Except.ok () ∧
    (El1xxx.process_data arrLen err good).errFlag = false ∧
    (El1xxx.process_data arrLen err good).logged = false ∧
    (El1xxx.process_data arrLen err good).result = Except.ok () ∧
    (El1xxx.process_data arrLen err good).published = [] := by
  have h1 : El1xxx.process_data arrLen false input =
      ⟨true, true, Except.error "Input data length mismatch", []⟩ := by
    rw [El1xxx.process_data, if_pos ⟨hmis, rfl⟩]
  have h3 : El1xxx.process_data arrLen err good =
      ⟨false, false, Except.ok (), []⟩ := by
    rw [El1xxx.process_data, if_neg]
    intro hc
    exact hc.1 hgood
  have h2 : (I550.process_data cnt inp out).warned = true ∧
      (I550.process_data cnt inp out).result = Except.ok () := by
    rcases hio with h | h
    · rw [I550.process_data, if_pos h]
      exact ⟨rfl, rfl⟩
    · rw [I550.process_data]
      by_cases ho : out.length ≠ 4
      · rw [if_pos ho]
        exact ⟨rfl, rfl⟩
      · rw [if_neg ho, if_pos h]
        exact ⟨rfl, rfl⟩
  refine ⟨by rw [h1], by rw [h1], by rw [h1], ?_, h2.1, h2.2,
    by rw [h3], by rw [h3], by rw [h3], by rw [h3]⟩
  rw [h1]
  rfl

/-- Witness for the amended C7 at concrete slices: the digital-IO
device's first mismatched cycle sets its flag (and would abort the
dispatch), the i550 warns on a 5-byte input while returning `Ok`, and a
matching 1-byte cycle publishes nothing. -/
theorem length_mismatch_policy_amended_witness :
    (El1xxx.process_data 1 false [0, 0]).errFlag = true ∧
    Bus.processAll [(El1xxx.process_data 1 false [0, 0]).result] =
      Except.error "Input data length mismatch" ∧
    (I550.process_data 0 [0, 0, 0, 0, 0] [0, 0, 0, 0]).warned = true ∧
    (El1xxx.process_data 1 true [7]).published = [] := by
  have h := length_mismatch_policy_amended 1 [0, 0] (by decide) []
    0 [0, 0, 0, 0, 0] [0, 0, 0, 0] (Or.inr (by decide)) [7] (by decide) true
  exact ⟨h.2.1, h.2.2.2.1, h.2.2.2.2.1, h.2.2.2.2.2.2.2.2.2⟩

/-- C8 (code evaluated at the failing input): for the 8-channel El1008
with channel map `[1,5,2,6,3,7,4,8]` and raw input byte `0b10110100`
(= 180), `process_data` succeeds but publishes nothing at all — the
per-channel send in the bit loop is commented out — whereas the spec's
channel mapping prescribes exactly the 8-entry truth table
`[(1,0),(5,0),(2,1),(6,0),(3,1),(7,1),(4,0),(8,1)]`. -/
theorem el1008_publishing_disabled :
    (El1xxx.process_data 1 false [180]).result = Except.ok () ∧
    (El1xxx.process_data 1 false [180]).published = [] ∧
    El1xxx.specPublications El1xxx.entriesEl1008 [180] =
      [(1, false), (5, false), (2, true), (6, false),
       (3, true), (7, true), (4, false), (8, true)] ∧
    (El1xxx.process_data 1 false [180]).published ≠
      El1xxx.specPublications El1xxx.entriesEl1008 [180] := by
  refine ⟨rfl, rfl, by decide, by decide⟩

/-- C10: when the digital-IO device sees two consecutive mismatched
cycles, the first (flag clear) fails and sets the one-shot flag, but
the second (flag set) skips the length check, clears the flag, logs
nothing and returns `Ok` while processing the wrong-length buffer. -/
theorem el1xxx_error_flag_reset (arrLen : Nat) (input1 input2 : List Nat)
    (h1 : input1.length ≠ arrLen) (_h2 : input2.length ≠ arrLen) :
    (El1xxx.process_data arrLen false input1).result =
      Except.error "Input data length mismatch" ∧
    (El1xxx.process_data arrLen false input1).errFlag = true ∧
    (El1xxx.process_data arrLen true input2).result = Except.ok () ∧
    (El1xxx.process_data arrLen true input2).errFlag = false ∧
    (El1xxx.process_data arrLen true input2).logged = false := by
  have ha : El1xxx.process_data arrLen false input1 =
      ⟨true, true, Except.error "Input data length mismatch", []⟩ := by
    rw [El1xxx.process_data, if_pos ⟨h1, rfl⟩]
  have hb : El1xxx.process_data arrLen true input2 =
      ⟨false, false, Except.ok (), []⟩ := by
    rw [El1xxx.process_data, if_neg]
    intro hc
    exact absurd hc.2 (by decide)
  exact ⟨by rw [ha], by rw [ha], by rw [hb], by rw [hb], by rw [hb]⟩

/-- Witness for C10: on the 1-byte device, a 2-byte cycle then an empty
cycle — the second mismatched call returns `Ok` with the flag cleared. -/
theorem el1xxx_error_flag_reset_witness :
    (El1xxx.process_data 1 false [1, 2]).errFlag = true ∧
    (El1xxx.process_data 1 true []).result = Except.ok () ∧
    (El1xxx.process_data 1 true []).errFlag = false := by
  have h := el1xxx_error_flag_reset 1 [1, 2] [] (by decide) (by decide)
  exact ⟨h.2.1, h.2.2.1, h.2.2.2.1⟩
